import Mathlib

/-!
Verification development for the NextPlay milestone recommender.

The frontend logic (dashboard refill, age validation, rendering) is embedded
from the TypeScript source (`frontend/app/page.tsx`, the dashboard page, and
`frontend/components/DailyRecommendations.tsx`); numbers are modelled as
rationals.  The backend recommendation engine (`recommender.py`) is not part
of the available sources, so its pipeline is modelled from the specification.
-/

namespace NextPlay

/-- Play activity attached to a milestone (frontend `types` module). -/
structure Activity where
  title : String
  materials : List String
  instructions : List String
  benefit : String
deriving DecidableEq, Repr

/-- Difficulty tier of a recommendation. -/
inductive Category where
  | foundational
  | likely
  | challenge
deriving DecidableEq, Repr

/-- Output record of the recommendation engine (frontend `types` module). -/
structure Recommendation where
  milestone_id : String
  milestone_name : String
  probability : ℚ
  discovery_score : ℚ
  foundation_score : ℚ
  category : Category
  mastery_age : Option ℚ
  activity : Option Activity
deriving DecidableEq, Repr

/-! ## Frontend dashboard state and refill logic (from the dashboard page) -/

/-- Dashboard component state (the `useState` hooks of `Dashboard`). -/
structure DashState where
  recommendations : List Recommendation
  completedMilestones : List String
  journeyMilestones : List Recommendation
  error : Option String
  loading : Bool
  refillingSlots : List String
deriving DecidableEq, Repr

/-- The ids currently displayed (`prev.map(r => r.milestone_id)`). -/
def existingIds (prev : List Recommendation) : List String :=
  prev.map (fun r => r.milestone_id)

/-- `newRecommendations.find(r => !existingIds.has(r.milestone_id))`. -/
def findAvailableRec (prev newRecs : List Recommendation) : Option Recommendation :=
  newRecs.find? (fun r => ¬ (existingIds prev).contains r.milestone_id)

/-- The refill update applied to the displayed list: replace slot `slotId`
with a fresh recommendation when one exists (appending it and capping at 3),
otherwise just drop the slot. -/
def refillSlot (prev newRecs : List Recommendation) (slotId : String) :
    List Recommendation :=
  match findAvailableRec prev newRecs with
  | some rec =>
      ((prev.filter (fun r => r.milestone_id ≠ slotId)) ++ [rec]).take 3
  | none =>
      prev.filter (fun r => r.milestone_id ≠ slotId)

/-- Result of the HTTP fetch inside `fetchRecommendations`: either the parsed
recommendation list of an ok response, or a thrown error message. -/
def FetchOutcome := Except String (List Recommendation)

/-- State transition of `fetchRecommendations(slotId?)` once the fetch has
settled: sets/clears `error`, updates `recommendations` (refill logic for a
slot, wholesale replacement otherwise; reset to empty only on a non-refill
failure) and maintains `loading` and `refillingSlots` as the code does. -/
def fetchStep (s : DashState) (slotId : Option String)
    (result : Except String (List Recommendation)) : DashState :=
  let s0 : DashState :=
    { s with loading := (if slotId.isNone then true else s.loading), error := none }
  match result with
  | .ok newRecs =>
      match slotId with
      | some slot =>
          { s0 with
              recommendations := refillSlot s0.recommendations newRecs slot,
              refillingSlots := s0.refillingSlots.filter (fun x => x ≠ slot) }
      | none =>
          { s0 with recommendations := newRecs, loading := false }
  | .error msg =>
      match slotId with
      | some _ => { s0 with error := some msg }
      | none => { s0 with error := some msg, recommendations := [], loading := false }

/-- The completed-id list sent in the refill request body:
`overrideCompleted || completedMilestones`. -/
def fetchRequestCompleted (s : DashState) (overrideCompleted : Option (List String)) :
    List String :=
  overrideCompleted.getD s.completedMilestones

/-- Arguments of the refill fetch issued after completing a milestone. -/
structure RefillRequest where
  slotId : String
  completedIds : List String
deriving DecidableEq, Repr

/-- `handleMilestoneComplete`: remove the card from the displayed list, append
its id to the completed set (and the card to the journey), mark the slot as
refilling, and return the arguments of the refill fetch issued afterwards. -/
def handleMilestoneComplete (s : DashState) (m : Recommendation) :
    DashState × RefillRequest :=
  let updatedCompleted := s.completedMilestones ++ [m.milestone_id]
  let s1 : DashState :=
    { s with
        refillingSlots :=
          if s.refillingSlots.contains m.milestone_id then s.refillingSlots
          else s.refillingSlots ++ [m.milestone_id],
        recommendations :=
          s.recommendations.filter (fun r => r.milestone_id ≠ m.milestone_id),
        completedMilestones := updatedCompleted,
        journeyMilestones := s.journeyMilestones ++ [m] }
  (s1, { slotId := m.milestone_id, completedIds := updatedCompleted })

/-! ## Age validation (landing page `handleSubmit` and dashboard mount) -/

/-- Landing-page age validation: the submission proceeds only when the typed
age parses (`none` models an empty field or `NaN`) and is neither below 0 nor
above 48.  Mirrors `!ageMonths.trim() || isNaN(age) || age < 0 || age > 48`. -/
def landingAgeAccepted (ageInput : Option ℚ) : Bool :=
  match ageInput with
  | none => false
  | some a => decide (¬ (a < 0 ∨ 48 < a))

/-- Dashboard mount: the stored age is adopted unchanged when valid; a missing,
unparsable or out-of-range stored age causes a redirect to the landing page
(modelled as `none`) before any recommend request is made. -/
def dashboardInitAge (savedAge : Option ℚ) : Option ℚ :=
  match savedAge with
  | none => none
  | some a => if a < 0 ∨ 48 < a then none else some a

/-! ## Rendering (dashboard main area and `DailyRecommendations`) -/

/-- Which view the dashboard main area shows. -/
inductive DashView where
  | loadingView
  | errorView
  | contentView
deriving DecidableEq, Repr

/-- `loading ? <LoadingSkeleton/> : error ? <error box> : <DailyRecommendations/>`. -/
def renderDash (loading : Bool) (error : Option String) : DashView :=
  if loading then .loadingView
  else
    match error with
    | some _ => .errorView
    | none => .contentView

/-- Which view `DailyRecommendations` shows. -/
inductive RecsView where
  | emptyState
  | cardsView
deriving DecidableEq, Repr

/-- `DailyRecommendations` renders the "No recommendations available at this
time." empty state exactly when the list is empty. -/
def renderRecs (recs : List Recommendation) : RecsView :=
  if recs.isEmpty then .emptyState else .cardsView

/-! ## Backend recommendation engine, modelled from the specification

The serving code (`recommender.py`, `main.py`, `utils.py`) is not among the
available sources; the pipeline below follows §§3–4.6 of the specification.
The policy constants (window widths, weights, thresholds) are explicit choices
as §9 requires. -/

/-- Modelled from the spec: a catalog milestone — id, display name,
developmental domain, nullable mastery age, nullable activity (§3). -/
structure Milestone where
  id : String
  name : String
  domain : String
  mastery_age : Option ℚ
  activity : Option Activity
deriving DecidableEq, Repr

/-- Modelled from the spec: a directed weighted transition edge (§3). -/
structure TransitionEdge where
  from_id : String
  to_id : String
  prob : ℚ
deriving DecidableEq, Repr

/-- Modelled from the spec: the immutable milestone catalog (§4.1). -/
structure Catalog where
  milestones : List Milestone
  edges : List TransitionEdge
deriving DecidableEq, Repr

/-- Clamp a score into [0,1]; realises "saturate at 1.0 and never go
negative" (§4.3). -/
def clamp01 (x : ℚ) : ℚ := min 1 (max 0 x)

/-- The transition edges from any completed milestone into candidate `m`. -/
def relevantEdges (cat : Catalog) (completed : List String) (m : String) :
    List TransitionEdge :=
  cat.edges.filter (fun e => completed.contains e.from_id && e.to_id == m)

/-- Modelled from the spec: `discovery_score(m)` is the maximum transition
probability among edges from any completed milestone into `m`, and 0 when no
such edge exists — in particular 0 in new-user mode (§4.3). -/
def discovery_score (cat : Catalog) (completed : List String) (m : String) : ℚ :=
  ((relevantEdges cat completed m).map (fun e => e.prob)).foldr max 0

/-- Modelled from the spec: `foundation_score` peaks when the mastery age is
at the child's age and decays as the gap grows in either direction; an unknown
mastery age gets a neutral mid-range score (§4.3). -/
def foundation_score (age : ℚ) (mastery_age : Option ℚ) : ℚ :=
  match mastery_age with
  | none => 1/2
  | some t => clamp01 (1 - |age - t| / 12)

/-- Relative weight of the discovery signal in returning-user mode (§4.3). -/
def discoveryWeight : ℚ := 7/10

/-- Relative weight of the foundation signal in returning-user mode (§4.3). -/
def foundationWeight : ℚ := 3/10

/-- Modelled from the spec: combined match probability — a weighted
combination in returning-user mode, foundation alone in new-user mode,
clamped into [0,1] (§4.3). -/
def probabilityScore (hasHistory : Bool) (d f : ℚ) : ℚ :=
  if hasHistory then clamp01 (discoveryWeight * d + foundationWeight * f)
  else clamp01 f

/-- Foundation-score threshold of the `foundational` tier (§4.4, policy). -/
def foundationalThreshold : ℚ := 7/10

/-- Minimal lead (months) of the `challenge` tier (§4.4, policy). -/
def challengeLead : ℚ := 2

/-- Maximal lead (months) of the `challenge` tier (§4.4, policy). -/
def challengeLeadMax : ℚ := 6

/-- Modelled from the spec: ordered threshold rules, evaluated top-down —
`foundational` first, then the bounded-lead `challenge`, else `likely` (§4.4). -/
def categorize (age f : ℚ) (mastery_age : Option ℚ) : Category :=
  match mastery_age with
  | some t =>
      if foundationalThreshold < f ∧ t ≤ age then .foundational
      else if age + challengeLead ≤ t ∧ t ≤ age + challengeLeadMax then .challenge
      else .likely
  | none => .likely

/-- Width (months) of the age window below the child's age (§4.2, policy). -/
def ageWindow : ℚ := 3

/-- Width (months) of the lead window above the child's age (§4.2, policy). -/
def ageLead : ℚ := 6

/-- Modelled from the spec: new-user candidates — milestones whose mastery age
falls within a window around the child's age, including a lead window (§4.2). -/
def newUserCandidates (cat : Catalog) (age : ℚ) : List Milestone :=
  cat.milestones.filter (fun m =>
    match m.mastery_age with
    | some t => decide (age - ageWindow ≤ t) && decide (t ≤ age + ageLead)
    | none => false)

/-- Modelled from the spec: returning-user candidates — targets of edges from
any completed milestone (§4.2). -/
def returningCandidates (cat : Catalog) (completed : List String) : List Milestone :=
  cat.milestones.filter (fun m =>
    cat.edges.any (fun e => completed.contains e.from_id && e.to_id == m.id))

/-- Modelled from the spec: the eligible candidate pool — mode selected by
whether any milestone is completed, with completed candidates excluded
unconditionally before scoring (§4.2). -/
def candidatePool (cat : Catalog) (age : ℚ) (completed : List String) :
    List Milestone :=
  let base :=
    if completed.isEmpty then newUserCandidates cat age
    else returningCandidates cat completed
  base.filter (fun m => ¬ completed.contains m.id)

/-- Modelled from the spec: assemble the output record of one candidate (§3). -/
def scoreMilestone (cat : Catalog) (age : ℚ) (completed : List String)
    (m : Milestone) : Recommendation :=
  let d := discovery_score cat completed m.id
  let f := foundation_score age m.mastery_age
  { milestone_id := m.id
    milestone_name := m.name
    probability := probabilityScore (¬ completed.isEmpty) d f
    discovery_score := d
    foundation_score := f
    category := categorize age f m.mastery_age
    mastery_age := m.mastery_age
    activity := m.activity }

/-- A scored candidate carrying its catalog record (for domain lookups). -/
def ScoredCand := Milestone × Recommendation

/-- Insert one candidate into a probability-descending list. -/
def insertByProb (c : Milestone × Recommendation) :
    List (Milestone × Recommendation) → List (Milestone × Recommendation)
  | [] => [c]
  | d :: t =>
      if d.2.probability ≤ c.2.probability then c :: d :: t
      else d :: insertByProb c t

/-- Modelled from the spec: candidates primarily ordered by descending
probability (§4.5), by insertion sort. -/
def sortByProb (l : List (Milestone × Recommendation)) :
    List (Milestone × Recommendation) :=
  l.foldr insertByProb []

/-- Modelled from the spec: at least one `foundational` candidate is surfaced
when one exists — the first foundational candidate is promoted to the front of
the order (§4.5). -/
def promoteFoundational (l : List (Milestone × Recommendation)) :
    List (Milestone × Recommendation) :=
  match l.find? (fun p => p.2.category == Category.foundational) with
  | some p => p :: l.filter (fun q => ¬ q.1.id = p.1.id)
  | none => l

/-- One greedy selection step of the diversity filter: accept the candidate
while fewer than `n` are chosen, its id is fresh, and (in the strict first
pass) its domain is fresh. -/
def selectStep (n : Nat) (allowDomainRepeat : Bool)
    (acc : List (Milestone × Recommendation)) (c : Milestone × Recommendation) :
    List (Milestone × Recommendation) :=
  if acc.length < n
      ∧ ¬ (acc.map (fun p => p.1.id)).contains c.1.id
      ∧ (allowDomainRepeat = true
          ∨ ¬ (acc.map (fun p => p.1.domain)).contains c.1.domain)
  then acc ++ [c] else acc

/-- Modelled from the spec: the diversity filter — a first pass avoiding
domain repeats, then a second pass allowing repeats when domains are exhausted
so the list is not truncated (§4.5). -/
def diversitySelect (n : Nat) (ordered : List (Milestone × Recommendation)) :
    List (Milestone × Recommendation) :=
  let pass1 := ordered.foldl (selectStep n false) []
  ordered.foldl (selectStep n true) pass1

/-- Default output list bound (§4.5). -/
def defaultN : Nat := 3

/-- Modelled from the spec: the stateless service `recommend(age, completed)`
— age outside [0,48] is rejected as an input-validation failure, otherwise the
pipeline candidate pool → scorer → categorizer → diversity filter runs and an
empty pool yields an empty list, not an error (§4.6). -/
def recommend (cat : Catalog) (age : ℚ) (completed : List String) :
    Except String (List Recommendation) :=
  if age < 0 ∨ 48 < age then
    .error "baby_age_months must be between 0 and 48"
  else
    let pool := (candidatePool cat age completed).map
      (fun m => (m, scoreMilestone cat age completed m))
    let ordered := promoteFoundational (sortByProb pool)
    .ok ((diversitySelect defaultN ordered).map (fun p => p.2))

/-! ## Concrete sample data -/

/-- A sample activity record. -/
def exActivity : Activity :=
  { title := "Peekaboo"
    materials := ["blanket"]
    instructions := ["hide the toy", "reveal it"]
    benefit := "object permanence" }

/-- A concrete catalog: the candidate `x` is reachable by a strong 0.9 edge
from `a` and a weak 0.2 edge from `b`. -/
def exCatalog : Catalog :=
  { milestones :=
      [ { id := "a", name := "A", domain := "motor", mastery_age := some 5,
          activity := none }
      , { id := "b", name := "B", domain := "language", mastery_age := some 6,
          activity := none }
      , { id := "x", name := "X", domain := "motor", mastery_age := some 7,
          activity := some exActivity }
      , { id := "y", name := "Y", domain := "cognitive", mastery_age := none,
          activity := none } ]
    edges :=
      [ { from_id := "a", to_id := "x", prob := 9/10 }
      , { from_id := "b", to_id := "x", prob := 2/10 }
      , { from_id := "a", to_id := "y", prob := 3/10 } ] }

/-- The concrete engine output for age 6 with milestone `a` completed. -/
def exOut : List Recommendation :=
  (recommend exCatalog 6 ["a"]).toOption.getD []

/-- A minimal displayed card used in concrete frontend scenarios. -/
def mkRec (i : String) (p : ℚ) : Recommendation :=
  { milestone_id := i
    milestone_name := i
    probability := p
    discovery_score := p
    foundation_score := p
    category := .likely
    mastery_age := none
    activity := none }

/-- A one-candidate catalog: a single 0.5 edge into a milestone whose mastery
age is unknown. -/
def exCatalogW : Catalog :=
  { milestones :=
      [ { id := "w", name := "W", domain := "motor", mastery_age := none,
          activity := none } ]
    edges := [ { from_id := "a", to_id := "w", prob := 1/2 } ] }

/-- The scored record of the sole candidate of `exCatalogW`. -/
def exRecW : Recommendation :=
  scoreMilestone exCatalogW 6 ["a"]
    { id := "w", name := "W", domain := "motor", mastery_age := none,
      activity := none }

/-- A concrete displayed list of three cards. -/
def exPrev : List Recommendation := [mkRec "p" (1/2), mkRec "q" (1/3), mkRec "r" (1/4)]

/-- A concrete fetched list: one id already displayed, one fresh. -/
def exNew : List Recommendation := [mkRec "p" (1/2), mkRec "z" (2/3)]

/-- A concrete dashboard state. -/
def exState : DashState :=
  { recommendations := exPrev
    completedMilestones := ["a"]
    journeyMilestones := []
    error := none
    loading := false
    refillingSlots := [] }

/-! ## Helper lemmas about the engine pipeline -/

theorem selectStep_mem {n : Nat} {b : Bool} {acc : List (Milestone × Recommendation)}
    {c p : Milestone × Recommendation} (h : p ∈ selectStep n b acc c) :
    p ∈ acc ∨ p = c := by
  unfold selectStep at h
  split at h
  · rcases List.mem_append.mp h with h1 | h1
    · exact Or.inl h1
    · exact Or.inr (List.mem_singleton.mp h1)
  · exact Or.inl h

theorem foldl_selectStep_mem {n : Nat} {b : Bool} :
    ∀ (l acc : List (Milestone × Recommendation)) (p : Milestone × Recommendation),
      p ∈ l.foldl (selectStep n b) acc → p ∈ acc ∨ p ∈ l
  | [], _, _, h => Or.inl h
  | c :: t, acc, p, h => by
      rcases foldl_selectStep_mem t (selectStep n b acc c) p h with h1 | h1
      · rcases selectStep_mem h1 with h2 | h2
        · exact Or.inl h2
        · exact Or.inr (by simp [h2])
      · exact Or.inr (List.mem_cons_of_mem _ h1)

theorem selectStep_length {n : Nat} {b : Bool} {acc : List (Milestone × Recommendation)}
    {c : Milestone × Recommendation} (h : acc.length ≤ n) :
    (selectStep n b acc c).length ≤ n := by
  unfold selectStep
  split
  · next hcond =>
      have h1 := hcond.1
      simp only [List.length_append, List.length_singleton]
      omega
  · exact h

theorem foldl_selectStep_length {n : Nat} {b : Bool} :
    ∀ (l acc : List (Milestone × Recommendation)), acc.length ≤ n →
      (l.foldl (selectStep n b) acc).length ≤ n
  | [], _, h => h
  | _ :: t, acc, h =>
      foldl_selectStep_length t (selectStep _ _ acc _) (selectStep_length h)

theorem selectStep_nodup {n : Nat} {b : Bool} {acc : List (Milestone × Recommendation)}
    {c : Milestone × Recommendation}
    (h : (acc.map (fun p => p.1.id)).Nodup) :
    ((selectStep n b acc c).map (fun p => p.1.id)).Nodup := by
  unfold selectStep
  split
  · next hcond =>
      have hfresh : c.1.id ∉ acc.map (fun p => p.1.id) := by
        have h2 := hcond.2.1
        simpa using h2
      simp only [List.map_append, List.map_cons, List.map_nil]
      rw [List.nodup_append]
      refine ⟨h, List.nodup_singleton _, ?_⟩
      intro x hx hx'
      simp only [List.mem_singleton] at hx'
      exact hfresh (hx' ▸ hx)
  · exact h

theorem foldl_selectStep_nodup {n : Nat} {b : Bool} :
    ∀ (l acc : List (Milestone × Recommendation)),
      (acc.map (fun p => p.1.id)).Nodup →
      ((l.foldl (selectStep n b) acc).map (fun p => p.1.id)).Nodup
  | [], _, h => h
  | _ :: t, acc, h =>
      foldl_selectStep_nodup t (selectStep _ _ acc _) (selectStep_nodup h)

theorem diversitySelect_mem {n : Nat} {ordered : List (Milestone × Recommendation)}
    {p : Milestone × Recommendation} (h : p ∈ diversitySelect n ordered) :
    p ∈ ordered := by
  unfold diversitySelect at h
  rcases foldl_selectStep_mem ordered _ p h with h1 | h1
  · rcases foldl_selectStep_mem ordered [] p h1 with h2 | h2
    · exact absurd h2 (List.not_mem_nil p)
    · exact h2
  · exact h1

theorem diversitySelect_length {n : Nat} {ordered : List (Milestone × Recommendation)} :
    (diversitySelect n ordered).length ≤ n :=
  foldl_selectStep_length ordered _
    (foldl_selectStep_length ordered [] (Nat.zero_le n))

theorem diversitySelect_nodup {n : Nat} {ordered : List (Milestone × Recommendation)} :
    ((diversitySelect n ordered).map (fun p => p.1.id)).Nodup :=
  foldl_selectStep_nodup ordered _
    (foldl_selectStep_nodup ordered [] List.nodup_nil)

theorem mem_insertByProb {c p : Milestone × Recommendation} :
    ∀ {l : List (Milestone × Recommendation)}, p ∈ insertByProb c l ↔ p = c ∨ p ∈ l
  | [] => by simp [insertByProb]
  | d :: t => by
      unfold insertByProb
      split
      · simp [or_comm, or_assoc, or_left_comm]
      · simp only [List.mem_cons, mem_insertByProb (l := t)]
        tauto

theorem mem_sortByProb {p : Milestone × Recommendation} :
    ∀ {l : List (Milestone × Recommendation)}, p ∈ sortByProb l ↔ p ∈ l
  | [] => Iff.rfl
  | c :: t => by
      show p ∈ insertByProb c (sortByProb t) ↔ _
      rw [mem_insertByProb]
      simp [mem_sortByProb (l := t)]

theorem mem_promoteFoundational {l : List (Milestone × Recommendation)}
    {p : Milestone × Recommendation} (h : p ∈ promoteFoundational l) : p ∈ l := by
  unfold promoteFoundational at h
  split at h
  · next q hq =>
      rcases List.mem_cons.mp h with h1 | h1
      · exact h1 ▸ List.mem_of_find?_eq_some hq
      · exact List.mem_of_mem_filter h1
  · exact h

theorem recommend_ok_of_age {cat : Catalog} {age : ℚ} {completed : List String}
    (hage : ¬ (age < 0 ∨ 48 < age)) :
    recommend cat age completed =
      .ok ((diversitySelect defaultN
        (promoteFoundational (sortByProb ((candidatePool cat age completed).map
          (fun m => (m, scoreMilestone cat age completed m)))))).map (fun p => p.2)) := by
  unfold recommend
  rw [if_neg hage]

theorem mem_recommend_ok {cat : Catalog} {age : ℚ} {completed : List String}
    {out : List Recommendation} {r : Recommendation}
    (hout : recommend cat age completed = .ok out) (hr : r ∈ out) :
    ∃ m, m ∈ candidatePool cat age completed ∧ r = scoreMilestone cat age completed m := by
  unfold recommend at hout
  split at hout
  · exact absurd hout (by simp)
  · have hout' := Except.ok.inj hout
    subst hout'
    rcases List.mem_map.mp hr with ⟨p, hp, hpr⟩
    have hp2 := diversitySelect_mem hp
    have hp3 := mem_promoteFoundational hp2
    have hp4 := mem_sortByProb.mp hp3
    rcases List.mem_map.mp hp4 with ⟨m, hm, hmp⟩
    exact ⟨m, hm, by rw [← hpr, ← hmp]⟩

theorem candidatePool_not_completed {cat : Catalog} {age : ℚ}
    {completed : List String} {m : Milestone}
    (h : m ∈ candidatePool cat age completed) : m.id ∉ completed := by
  unfold candidatePool at h
  have h2 := (List.mem_filter.mp h).2
  simpa using h2

theorem clamp01_nonneg (x : ℚ) : 0 ≤ clamp01 x :=
  le_min (by norm_num) (le_max_left 0 x)

theorem clamp01_le_one (x : ℚ) : clamp01 x ≤ 1 :=
  min_le_left 1 _

theorem foldr_max_nonneg : ∀ (l : List ℚ), 0 ≤ l.foldr max 0
  | [] => le_refl 0
  | x :: t => le_trans (foldr_max_nonneg t) (le_max_right x _)

theorem foldr_max_le_one : ∀ {l : List ℚ}, (∀ x ∈ l, x ≤ 1) → l.foldr max 0 ≤ 1
  | [], _ => by norm_num
  | x :: t, h => by
      simp only [List.foldr_cons]
      exact max_le (h x (by simp)) (foldr_max_le_one (fun y hy => h y (by simp [hy])))

theorem le_foldr_max : ∀ {l : List ℚ} {x : ℚ}, x ∈ l → x ≤ l.foldr max 0
  | y :: t, x, hx => by
      rcases List.mem_cons.mp hx with h1 | h1
      · subst h1
        exact le_max_left x (t.foldr max 0)
      · exact le_trans (le_foldr_max h1) (le_max_right y _)

theorem foldr_max_mem : ∀ {l : List ℚ}, (∀ x ∈ l, 0 ≤ x) → l ≠ [] →
    l.foldr max 0 ∈ l
  | [x], h, _ => by
      have hx : ([x] : List ℚ).foldr max 0 = max x 0 := rfl
      rw [hx, max_eq_left (h x (by simp))]
      exact List.mem_singleton_self x
  | x :: y :: t, h, _ => by
      have hgoal : (x :: y :: t).foldr max 0 = max x ((y :: t).foldr max 0) := rfl
      rw [hgoal]
      rcases max_choice x ((y :: t).foldr max 0) with h1 | h1
      · rw [h1]
        exact List.mem_cons_self x _
      · rw [h1]
        have hmem := foldr_max_mem (l := y :: t)
          (fun z hz => h z (List.mem_cons_of_mem x hz)) (by simp)
        exact List.mem_cons_of_mem x hmem

theorem relevantEdges_subset {cat : Catalog} {completed : List String} {m : String}
    {e : TransitionEdge} (h : e ∈ relevantEdges cat completed m) : e ∈ cat.edges :=
  List.mem_of_mem_filter h

theorem foundation_score_range (age : ℚ) (ma : Option ℚ) :
    0 ≤ foundation_score age ma ∧ foundation_score age ma ≤ 1 := by
  cases ma with
  | none => exact ⟨by norm_num [foundation_score], by norm_num [foundation_score]⟩
  | some t => exact ⟨clamp01_nonneg _, clamp01_le_one _⟩

theorem discovery_score_range {cat : Catalog} {completed : List String} {m : String}
    (hprob : ∀ e ∈ cat.edges, 0 ≤ e.prob ∧ e.prob ≤ 1) :
    0 ≤ discovery_score cat completed m ∧ discovery_score cat completed m ≤ 1 := by
  constructor
  · exact foldr_max_nonneg _
  · refine foldr_max_le_one ?_
    intro x hx
    rcases List.mem_map.mp hx with ⟨e, he, hex⟩
    exact hex ▸ (hprob e (relevantEdges_subset he)).2

theorem probabilityScore_range (b : Bool) (d f : ℚ) :
    0 ≤ probabilityScore b d f ∧ probabilityScore b d f ≤ 1 := by
  unfold probabilityScore
  split
  · exact ⟨clamp01_nonneg _, clamp01_le_one _⟩
  · exact ⟨clamp01_nonneg _, clamp01_le_one _⟩

/-! ## Helper lemmas about the frontend refill logic -/

theorem findAvailableRec_some {prev newRecs : List Recommendation}
    {rec : Recommendation} (h : findAvailableRec prev newRecs = some rec) :
    rec ∈ newRecs ∧ rec.milestone_id ∉ existingIds prev := by
  refine ⟨List.mem_of_find?_eq_some h, ?_⟩
  have h2 := List.find?_some h
  simp at h2
  exact h2

theorem findAvailableRec_none {prev newRecs : List Recommendation}
    (h : ∀ r ∈ newRecs, r.milestone_id ∈ existingIds prev) :
    findAvailableRec prev newRecs = none := by
  refine List.find?_eq_none.mpr ?_
  intro r hr
  have h2 := h r hr
  simp
  exact h2

theorem filter_ids_sublist (prev : List Recommendation) (slot : String) :
    ((prev.filter (fun r => r.milestone_id ≠ slot)).map (fun r => r.milestone_id)).Sublist
      (prev.map (fun r => r.milestone_id)) :=
  (List.filter_sublist prev).map _

theorem refillSlot_length {prev newRecs : List Recommendation} {slot : String}
    (h : prev.length ≤ 3) : (refillSlot prev newRecs slot).length ≤ 3 := by
  unfold refillSlot
  split
  · exact le_trans (List.length_take_le 3 _) (le_refl 3)
  · exact le_trans (List.length_filter_le _ prev) h

theorem refillSlot_nodup {prev newRecs : List Recommendation} {slot : String}
    (h : (prev.map (fun r => r.milestone_id)).Nodup) :
    ((refillSlot prev newRecs slot).map (fun r => r.milestone_id)).Nodup := by
  unfold refillSlot
  split
  · next rec hrec =>
      have hfresh := (findAvailableRec_some hrec).2
      have hfiltered : ((prev.filter (fun r => r.milestone_id ≠ slot)).map
          (fun r => r.milestone_id)).Nodup :=
        h.sublist (filter_ids_sublist prev slot)
      have happ : (((prev.filter (fun r => r.milestone_id ≠ slot)) ++ [rec]).map
          (fun r => r.milestone_id)).Nodup := by
        simp only [List.map_append, List.map_cons, List.map_nil]
        rw [List.nodup_append]
        refine ⟨hfiltered, List.nodup_singleton _, ?_⟩
        intro x hx hx'
        simp only [List.mem_singleton] at hx'
        subst hx'
        exact hfresh ((filter_ids_sublist prev slot).mem hx)
      rw [List.map_take]
      exact happ.sublist (List.take_sublist 3 _)
  · exact h.sublist (filter_ids_sublist prev slot)

theorem recommend_ok_shape {cat : Catalog} {age : ℚ} {completed : List String}
    {out : List Recommendation}
    (hout : recommend cat age completed = .ok out) :
    out = (diversitySelect defaultN (promoteFoundational (sortByProb
      ((candidatePool cat age completed).map
        (fun m => (m, scoreMilestone cat age completed m)))))).map (fun p => p.2) := by
  unfold recommend at hout
  split at hout
  · exact absurd hout (by simp)
  · exact (Except.ok.inj hout).symm

theorem recommend_pair_id {cat : Catalog} {age : ℚ} {completed : List String}
    {p : Milestone × Recommendation}
    (hp : p ∈ (candidatePool cat age completed).map
      (fun m => (m, scoreMilestone cat age completed m))) :
    p.2.milestone_id = p.1.id := by
  rcases List.mem_map.mp hp with ⟨m, _, rfl⟩
  rfl

theorem recommend_out_ids_nodup {cat : Catalog} {age : ℚ} {completed : List String}
    {out : List Recommendation}
    (hout : recommend cat age completed = .ok out) :
    (out.map (fun r => r.milestone_id)).Nodup := by
  rw [recommend_ok_shape hout, List.map_map]
  have h2 : ∀ p ∈ diversitySelect defaultN (promoteFoundational (sortByProb
      ((candidatePool cat age completed).map
        (fun m => (m, scoreMilestone cat age completed m))))),
      ((fun r => r.milestone_id) ∘ (fun p => p.2)) p = (fun p => p.1.id) p := by
    intro p hp
    exact recommend_pair_id
      (mem_sortByProb.mp (mem_promoteFoundational (diversitySelect_mem hp)))
  rw [List.map_congr_left h2]
  exact diversitySelect_nodup

/-! ## Claim theorems -/

/-- C1: completed exclusion — no recommendation of an ok engine response
carries an id of `completed_milestone_ids`; and completing a displayed card
removes its id from the displayed list, records it in the completed set, and
the refill request issued afterwards carries exactly that updated set together
with the completed id as the vacated slot. -/
theorem completed_exclusion (cat : Catalog) (age : ℚ) (completed : List String)
    (out : List Recommendation) (s : DashState) (m : Recommendation)
    (hout : recommend cat age completed = .ok out) :
    (∀ r ∈ out, r.milestone_id ∉ completed)
    ∧ m.milestone_id ∉ existingIds (handleMilestoneComplete s m).1.recommendations
    ∧ m.milestone_id ∈ (handleMilestoneComplete s m).1.completedMilestones
    ∧ (handleMilestoneComplete s m).2.slotId = m.milestone_id
    ∧ (handleMilestoneComplete s m).2.completedIds
        = (handleMilestoneComplete s m).1.completedMilestones := by
  refine ⟨?_, ?_, ?_, rfl, rfl⟩
  · intro r hr
    rcases mem_recommend_ok hout hr with ⟨m', hm', rfl⟩
    exact candidatePool_not_completed hm'
  · simp [handleMilestoneComplete, existingIds]
  · simp [handleMilestoneComplete]

theorem completed_exclusion_witness :
    (∀ r ∈ exOut, r.milestone_id ∉ ["a"])
    ∧ (mkRec "w" 1).milestone_id ∉
        existingIds (handleMilestoneComplete exState (mkRec "w" 1)).1.recommendations
    ∧ (mkRec "w" 1).milestone_id ∈
        (handleMilestoneComplete exState (mkRec "w" 1)).1.completedMilestones
    ∧ (handleMilestoneComplete exState (mkRec "w" 1)).2.slotId
        = (mkRec "w" 1).milestone_id
    ∧ (handleMilestoneComplete exState (mkRec "w" 1)).2.completedIds
        = (handleMilestoneComplete exState (mkRec "w" 1)).1.completedMilestones :=
  completed_exclusion exCatalog 6 ["a"] exOut exState (mkRec "w" 1) (by rfl)

/-- C2: bounded size and no duplicates — an ok engine response has at most 3
entries with pairwise distinct ids; the refill update keeps a list that was
within the cap and duplicate-free both capped at 3 and duplicate-free, and any
replacement it selects has an id distinct from every displayed id. -/
theorem bounded_nodup (cat : Catalog) (age : ℚ) (completed : List String)
    (out : List Recommendation) (prev newRecs : List Recommendation) (slot : String)
    (hout : recommend cat age completed = .ok out)
    (hlen : prev.length ≤ 3)
    (hnd : (prev.map (fun r => r.milestone_id)).Nodup) :
    (out.length ≤ 3 ∧ (out.map (fun r => r.milestone_id)).Nodup)
    ∧ (refillSlot prev newRecs slot).length ≤ 3
    ∧ ((refillSlot prev newRecs slot).map (fun r => r.milestone_id)).Nodup
    ∧ (∀ rec, findAvailableRec prev newRecs = some rec →
        rec.milestone_id ∉ existingIds prev) := by
  refine ⟨⟨?_, recommend_out_ids_nodup hout⟩, refillSlot_length hlen,
    refillSlot_nodup hnd, fun rec hrec => (findAvailableRec_some hrec).2⟩
  rw [recommend_ok_shape hout, List.length_map]
  exact diversitySelect_length

theorem bounded_nodup_witness :
    (exOut.length ≤ 3 ∧ (exOut.map (fun r => r.milestone_id)).Nodup)
    ∧ (refillSlot exPrev exNew "q").length ≤ 3
    ∧ ((refillSlot exPrev exNew "q").map (fun r => r.milestone_id)).Nodup
    ∧ (∀ rec, findAvailableRec exPrev exNew = some rec →
        rec.milestone_id ∉ existingIds exPrev) :=
  bounded_nodup exCatalog 6 ["a"] exOut exPrev exNew "q" (by rfl) (by decide)
    (by decide)

/-- C3: invalid age rejected — the landing page accepts a typed age exactly
when it parses into [0, 48]; an empty or unparsable field is rejected.  The
dashboard adopts a stored in-range age unchanged (no clamping) and otherwise
redirects (yielding no age to recommend with). -/
theorem age_validation (a : ℚ) :
    (landingAgeAccepted (some a) = true ↔ 0 ≤ a ∧ a ≤ 48)
    ∧ landingAgeAccepted none = false
    ∧ dashboardInitAge none = none
    ∧ (0 ≤ a → a ≤ 48 → dashboardInitAge (some a) = some a)
    ∧ (¬ (0 ≤ a ∧ a ≤ 48) → dashboardInitAge (some a) = none) := by
  refine ⟨?_, rfl, rfl, ?_, ?_⟩
  · simp [landingAgeAccepted, not_or, not_lt]
  · intro h0 h48
    have hno : ¬ (a < 0 ∨ 48 < a) := by
      push_neg
      exact ⟨h0, h48⟩
    simp [dashboardInitAge, hno]
  · intro h
    have hyes : a < 0 ∨ 48 < a := by
      by_contra hno
      push_neg at hno
      exact h ⟨hno.1, hno.2⟩
    simp [dashboardInitAge, hyes]

theorem age_validation_witness :
    dashboardInitAge (some 50) = none
    ∧ dashboardInitAge (some (-1)) = none
    ∧ dashboardInitAge (some 6) = some 6
    ∧ landingAgeAccepted (some 6) = true :=
  ⟨(age_validation 50).2.2.2.2 (by norm_num),
   (age_validation (-1)).2.2.2.2 (by norm_num),
   (age_validation 6).2.2.2.1 (by norm_num) (by norm_num),
   (age_validation 6).1.mpr ⟨by norm_num, by norm_num⟩⟩

/-- C4: discovery score is the maximum — it bounds every transition
probability from a completed milestone into the candidate, is attained by one
of them whenever any exists, is 0 with an empty completed set, and on the
concrete two-edge catalog (0.9 from one completed milestone, 0.2 from another)
it is 0.9, not an average or a sum. -/
theorem discovery_is_max (cat : Catalog) (completed : List String) (m : String)
    (hprob : ∀ e ∈ cat.edges, 0 ≤ e.prob) :
    (∀ e ∈ relevantEdges cat completed m,
        e.prob ≤ discovery_score cat completed m)
    ∧ (relevantEdges cat completed m ≠ [] →
        discovery_score cat completed m
          ∈ (relevantEdges cat completed m).map (fun e => e.prob))
    ∧ (completed = [] → discovery_score cat completed m = 0)
    ∧ discovery_score exCatalog ["a", "b"] "x" = 9/10 := by
  refine ⟨?_, ?_, ?_, ?_⟩
  · intro e he
    exact le_foldr_max (List.mem_map_of_mem _ he)
  · intro hne
    refine foldr_max_mem ?_ ?_
    · intro x hx
      rcases List.mem_map.mp hx with ⟨e, he, rfl⟩
      exact hprob e (relevantEdges_subset he)
    · intro hmap
      exact hne (List.map_eq_nil_iff.mp hmap)
  · intro hc
    subst hc
    simp [discovery_score, relevantEdges]
  · simp [discovery_score, relevantEdges, exCatalog, max_def]
    norm_num

theorem discovery_is_max_witness :
    (∀ e ∈ relevantEdges exCatalog ["a", "b"] "x",
        e.prob ≤ discovery_score exCatalog ["a", "b"] "x")
    ∧ (relevantEdges exCatalog ["a", "b"] "x" ≠ [] →
        discovery_score exCatalog ["a", "b"] "x"
          ∈ (relevantEdges exCatalog ["a", "b"] "x").map (fun e => e.prob))
    ∧ (["a", "b"] = ([] : List String) →
        discovery_score exCatalog ["a", "b"] "x" = 0)
    ∧ discovery_score exCatalog ["a", "b"] "x" = 9/10 :=
  discovery_is_max exCatalog ["a", "b"] "x" (by
    intro e he
    simp only [exCatalog, List.mem_cons, List.not_mem_nil, or_false] at he
    rcases he with rfl | rfl | rfl <;> norm_num)

/-- C5: exhausted refill is not an error — when every fetched candidate id is
already displayed, the refill fetch ends with no error, the vacated slot is
simply dropped (a shorter list), and the loading flag is untouched. -/
theorem exhausted_refill (s : DashState) (slot : String)
    (newRecs : List Recommendation)
    (hex : ∀ r ∈ newRecs, r.milestone_id ∈ existingIds s.recommendations) :
    (fetchStep s (some slot) (.ok newRecs)).error = none
    ∧ (fetchStep s (some slot) (.ok newRecs)).recommendations
        = s.recommendations.filter (fun r => r.milestone_id ≠ slot)
    ∧ (fetchStep s (some slot) (.ok newRecs)).loading = s.loading := by
  have hnone : findAvailableRec s.recommendations newRecs = none :=
    findAvailableRec_none hex
  refine ⟨rfl, ?_, rfl⟩
  show refillSlot s.recommendations newRecs slot = _
  unfold refillSlot
  rw [hnone]

theorem exhausted_refill_witness :
    (fetchStep exState (some "q") (.ok [mkRec "p" (1/2)])).error = none
    ∧ (fetchStep exState (some "q") (.ok [mkRec "p" (1/2)])).recommendations
        = exState.recommendations.filter (fun r => r.milestone_id ≠ "q")
    ∧ (fetchStep exState (some "q") (.ok [mkRec "p" (1/2)])).loading
        = exState.loading :=
  exhausted_refill exState "q" [mkRec "p" (1/2)] (by decide)

/-- C6: an empty eligible pool yields a successful empty response, and the
dashboard then renders the normal content view whose empty state shows, never
the error view. -/
theorem empty_pool_empty_state (cat : Catalog) (age : ℚ) (completed : List String)
    (s : DashState)
    (hage : ¬ (age < 0 ∨ 48 < age))
    (hpool : candidatePool cat age completed = []) :
    recommend cat age completed = .ok []
    ∧ (fetchStep s none (.ok [])).error = none
    ∧ (fetchStep s none (.ok [])).loading = false
    ∧ (fetchStep s none (.ok [])).recommendations = []
    ∧ renderDash (fetchStep s none (.ok [])).loading
        (fetchStep s none (.ok [])).error = .contentView
    ∧ renderRecs (fetchStep s none (.ok [])).recommendations = .emptyState
    ∧ DashView.contentView ≠ DashView.errorView := by
  refine ⟨?_, rfl, rfl, rfl, rfl, rfl, by decide⟩
  rw [recommend_ok_of_age hage, hpool]
  rfl

theorem empty_pool_empty_state_witness :
    recommend exCatalog 6 ["zzz"] = .ok []
    ∧ (fetchStep exState none (.ok [])).error = none
    ∧ (fetchStep exState none (.ok [])).loading = false
    ∧ (fetchStep exState none (.ok [])).recommendations = []
    ∧ renderDash (fetchStep exState none (.ok [])).loading
        (fetchStep exState none (.ok [])).error = .contentView
    ∧ renderRecs (fetchStep exState none (.ok [])).recommendations = .emptyState
    ∧ DashView.contentView ≠ DashView.errorView :=
  empty_pool_empty_state exCatalog 6 ["zzz"] exState (by norm_num) (by rfl)

/-- C7: the refill selection and the engine pipeline are deterministic — two
invocations with equal inputs select the same replacement and produce equal
lists and equal responses. -/
theorem refill_deterministic
    (prev1 prev2 new1 new2 : List Recommendation) (slot1 slot2 : String)
    (cat1 cat2 : Catalog) (age1 age2 : ℚ) (comp1 comp2 : List String)
    (hp : prev1 = prev2) (hn : new1 = new2) (hs : slot1 = slot2)
    (hc : cat1 = cat2) (ha : age1 = age2) (hcomp : comp1 = comp2) :
    findAvailableRec prev1 new1 = findAvailableRec prev2 new2
    ∧ refillSlot prev1 new1 slot1 = refillSlot prev2 new2 slot2
    ∧ recommend cat1 age1 comp1 = recommend cat2 age2 comp2 := by
  subst hp
  subst hn
  subst hs
  subst hc
  subst ha
  subst hcomp
  exact ⟨rfl, rfl, rfl⟩

theorem refill_deterministic_witness :
    findAvailableRec exPrev exNew = findAvailableRec exPrev exNew
    ∧ refillSlot exPrev exNew "q" = refillSlot exPrev exNew "q"
    ∧ recommend exCatalog 6 ["a"] = recommend exCatalog 6 ["a"] :=
  refill_deterministic exPrev exPrev exNew exNew "q" "q" exCatalog exCatalog
    6 6 ["a"] ["a"] rfl rfl rfl rfl rfl rfl

/-- C8: score ranges — in an ok engine response, `probability`,
`discovery_score` and `foundation_score` of every entry lie in [0, 1],
provided the catalog's transition probabilities do. -/
theorem score_range (cat : Catalog) (age : ℚ) (completed : List String)
    (out : List Recommendation)
    (hprob : ∀ e ∈ cat.edges, 0 ≤ e.prob ∧ e.prob ≤ 1)
    (hout : recommend cat age completed = .ok out) :
    ∀ r ∈ out,
      (0 ≤ r.probability ∧ r.probability ≤ 1)
      ∧ (0 ≤ r.discovery_score ∧ r.discovery_score ≤ 1)
      ∧ (0 ≤ r.foundation_score ∧ r.foundation_score ≤ 1) := by
  intro r hr
  rcases mem_recommend_ok hout hr with ⟨m, _, rfl⟩
  exact ⟨probabilityScore_range _ _ _, discovery_score_range hprob,
    foundation_score_range age m.mastery_age⟩

theorem score_range_witness :
    recommend exCatalogW 6 ["a"] = .ok [exRecW]
    ∧ (0 ≤ exRecW.probability ∧ exRecW.probability ≤ 1)
    ∧ (0 ≤ exRecW.discovery_score ∧ exRecW.discovery_score ≤ 1)
    ∧ (0 ≤ exRecW.foundation_score ∧ exRecW.foundation_score ≤ 1) := by
  have hout : recommend exCatalogW 6 ["a"] = .ok [exRecW] := by rfl
  have hall := score_range exCatalogW 6 ["a"] [exRecW] (by
    intro e he
    simp only [exCatalogW, List.mem_cons, List.not_mem_nil, or_false] at he
    subst he
    constructor <;> norm_num) hout exRecW (List.mem_singleton_self _)
  exact ⟨hout, hall.1, hall.2.1, hall.2.2⟩

/-- C9: refill frame — when a replacement is found, the refill result is the
displayed list with the vacated slot's entries removed, in their original
relative order, and the replacement appended at the end. -/
theorem refill_frame (prev newRecs : List Recommendation) (slot : String)
    (rec : Recommendation)
    (hfind : findAvailableRec prev newRecs = some rec)
    (hlen : (prev.filter (fun r => r.milestone_id ≠ slot)).length ≤ 2) :
    refillSlot prev newRecs slot
      = (prev.filter (fun r => r.milestone_id ≠ slot)) ++ [rec]
    ∧ (prev.filter (fun r => r.milestone_id ≠ slot)).Sublist prev := by
  constructor
  · unfold refillSlot
    rw [hfind]
    apply List.take_of_length_le
    simp only [List.length_append, List.length_singleton]
    omega
  · exact List.filter_sublist prev

theorem refill_frame_witness :
    refillSlot exPrev exNew "q"
      = (exPrev.filter (fun r => r.milestone_id ≠ "q")) ++ [mkRec "z" (2/3)]
    ∧ (exPrev.filter (fun r => r.milestone_id ≠ "q")).Sublist exPrev :=
  refill_frame exPrev exNew "q" (mkRec "z" (2/3)) (by rfl) (by decide)

/-- C10: a failed refill fetch leaves the displayed list untouched (only
recording the error), while a failed full fetch resets the list to empty. -/
theorem refill_failure_frame (s : DashState) (slot msg : String) :
    (fetchStep s (some slot) (.error msg)).recommendations = s.recommendations
    ∧ (fetchStep s (some slot) (.error msg)).error = some msg
    ∧ (fetchStep s none (.error msg)).recommendations = []
    ∧ (fetchStep s none (.error msg)).error = some msg :=
  ⟨rfl, rfl, rfl, rfl⟩

end NextPlay
